import Mathlib

/-!
Verification development for the NED energy-forecast integration.

The Python modules `linear_regression.py`, `coordinator.py` and `sensor.py`
are shallowly embedded below.  Floating-point arithmetic is modelled by exact
rational arithmetic (`ℚ`); Python exceptions are modelled by `Except`;
Python dictionaries are modelled by insertion-ordered association lists.
`round(x, d)` is modelled by `roundTo d` (rounding to the nearest multiple of
`10 ^ (-d)`; the tie-breaking mode is irrelevant to every statement below).
-/

namespace NED

abbrev Mat := List (List ℚ)

/-- The singularity threshold `1e-10` from `_matrix_inverse`. -/
def eps : ℚ := 1 / 10000000000

/-- Python `round(x, d)`: scale, round to an integer, unscale. -/
def roundTo (d : ℕ) (x : ℚ) : ℚ := (round (x * 10 ^ d) : ℤ) / 10 ^ d

/-- Mutable state of the Python `LinearRegression` object
(`coefficients`, `intercept`, `n_features`, `_is_fitted`). -/
structure LRState where
  coefficients : List ℚ
  intercept : ℚ
  nFeatures : ℕ
  isFitted : Bool
deriving Repr, DecidableEq

/-- `LinearRegression.__init__`. -/
def LRState.init : LRState := ⟨[], 0, 0, false⟩

/-- `matrix[i][j]` (indices are in range in every use below). -/
def getE (m : Mat) (i j : ℕ) : ℚ := (m.getD i []).getD j 0

/-- `_matrix_multiply_transpose`: computes `Aᵀ · B`. -/
def matMulT (A B : Mat) : Mat :=
  let n := (A.headD []).length
  let m := (B.headD []).length
  (List.range n).map fun i => (List.range m).map fun j =>
    (List.range A.length).foldl (fun acc k => acc + getE A k i * getE B k j) 0

/-- `_matrix_vector_multiply_transpose`: computes `Aᵀ · v`. -/
def matVecT (A : Mat) (v : List ℚ) : List ℚ :=
  let n := (A.headD []).length
  (List.range n).map fun i =>
    (List.range A.length).foldl (fun acc j => acc + getE A j i * v.getD j 0) 0

/-- `_matrix_vector_multiply`: computes `A · v`. -/
def matVec (A : Mat) (v : List ℚ) : List ℚ :=
  (List.range A.length).map fun i =>
    (List.range v.length).foldl (fun acc j => acc + getE A i j * v.getD j 0) 0

/-- Partial-pivot selection: the row index of the largest-magnitude entry of
column `i` at or below row `i` (the `max_row` loop of `_matrix_inverse`). -/
def pivotRow (aug : Mat) (i : ℕ) : ℕ :=
  (List.range' (i + 1) (aug.length - (i + 1))).foldl
    (fun mr k => if |getE aug k i| > |getE aug mr i| then k else mr) i

/-- The simultaneous row swap `augmented[i], augmented[max_row] = ...`. -/
def swapRows (aug : Mat) (i k : ℕ) : Mat :=
  let ri := aug.getD i []
  let rk := aug.getD k []
  (aug.set i rk).set k ri

/-- Dividing row `i` by the pivot (`augmented[i][j] /= pivot`). -/
def scaleRow (aug : Mat) (i : ℕ) (p : ℚ) : Mat :=
  aug.set i ((aug.getD i []).map (fun a => a / p))

/-- The elimination of column `i` from every other row
(`augmented[k][j] -= factor * augmented[i][j]`). -/
def elimStep (aug : Mat) (i : ℕ) : Mat :=
  let rowi := aug.getD i []
  aug.enum.map fun kr =>
    if kr.1 = i then kr.2
    else
      let factor := kr.2.getD i 0
      (kr.2.zip rowi).map fun ab => ab.1 - factor * ab.2

/-- One iteration of the elimination loop of `_matrix_inverse`: select the
pivot row, swap, abort when the pivot magnitude is below `1e-10`, otherwise
scale and eliminate. -/
def gjStep (aug : Mat) (i : ℕ) : Except String Mat :=
  let aug1 := swapRows aug i (pivotRow aug i)
  let p := getE aug1 i i
  if |p| < eps then Except.error "Matrix is singulier (niet inverteerbaar)"
  else Except.ok (elimStep (scaleRow aug1 i p) i)

/-- The elimination loop of `_matrix_inverse` over the remaining column
indices, aborting at the first failing pivot. -/
def gjRun : Mat → List ℕ → Except String Mat
  | aug, [] => Except.ok aug
  | aug, i :: rest =>
    match gjStep aug i with
    | Except.error e => Except.error e
    | Except.ok next => gjRun next rest

/-- The sequence of pivots the elimination selects, collected by a run that
never aborts (after a below-threshold pivot it keeps eliminating with exact
rational arithmetic).  This is the claim-side notion of the "selected pivots"
of the Gauss-Jordan elimination. -/
def gjPivots : Mat → List ℕ → List ℚ
  | _, [] => []
  | aug, i :: rest =>
    let aug1 := swapRows aug i (pivotRow aug i)
    let p := getE aug1 i i
    p :: gjPivots (elimStep (scaleRow aug1 i p) i) rest

/-- Building the augmented matrix `[A | I]`. -/
def augment (m : Mat) : Mat :=
  m.enum.map fun ir =>
    ir.2 ++ (List.range m.length).map fun j => if ir.1 = j then (1 : ℚ) else 0

/-- `_matrix_inverse`: Gauss-Jordan elimination on `[A | I]`, returning the
right half, or the `ValueError` for a singular matrix. -/
def matrixInverse (m : Mat) : Except String Mat :=
  match gjRun (augment m) (List.range m.length) with
  | Except.error e => Except.error e
  | Except.ok aug => Except.ok (aug.map fun row => row.drop m.length)

/-- The pivots selected while inverting `m` (claim-side companion of
`matrixInverse`). -/
def inversePivots (m : Mat) : List ℚ :=
  gjPivots (augment m) (List.range m.length)

/-- `LinearRegression.fit`.  Returns the state of the object after the call
together with the call's outcome; note that `n_features` is assigned before
the guarded inversion, so it is updated even when the fit fails. -/
def fit (st : LRState) (X : Mat) (y : List ℚ) : LRState × Except String Unit :=
  if X.length ≠ y.length then (st, Except.error "X en y moeten dezelfde lengte hebben")
  else if X.length = 0 then (st, Except.error "Training data mag niet leeg zijn")
  else
    let st1 := { st with nFeatures := (X.headD []).length }
    let X1 := X.map fun row => 1 :: row
    let XtX := matMulT X1 X1
    let Xty := matVecT X1 y
    match matrixInverse XtX with
    | Except.error e => (st1, Except.error e)
    | Except.ok XtXinv =>
      let cw := matVec XtXinv Xty
      ({ st1 with
          intercept := cw.headD 0
          coefficients := cw.tail
          isFitted := true },
        Except.ok ())

/-- The accumulation loop `for i, value in enumerate(row): prediction +=
self.coefficients[i] * value` of `LinearRegression.predict`; an out-of-range
coefficient index is Python's `IndexError`. -/
def predictRowLoop (st : LRState) (acc : ℚ) : List (ℕ × ℚ) → Except String ℚ
  | [] => Except.ok acc
  | iv :: rest =>
    match st.coefficients.get? iv.1 with
    | none => Except.error "IndexError"
    | some c => predictRowLoop st (acc + c * iv.2) rest

/-- The per-row body of `LinearRegression.predict`: width check, then
`intercept + Σ coefficients[i] * row[i]`. -/
def predictRow (st : LRState) (row : List ℚ) : Except String ℚ :=
  if row.length ≠ st.nFeatures then Except.error "Feature count mismatch"
  else predictRowLoop st st.intercept row.enum

/-- The row loop of `LinearRegression.predict`: the first failing row aborts
the whole call, otherwise predictions are collected in order. -/
def predictLoop (st : LRState) : Mat → Except String (List ℚ)
  | [] => Except.ok []
  | row :: rest =>
    match predictRow st row with
    | Except.error e => Except.error e
    | Except.ok p =>
      match predictLoop st rest with
      | Except.error e => Except.error e
      | Except.ok ps => Except.ok (p :: ps)

/-- `LinearRegression.predict`. -/
def predict (st : LRState) (X : Mat) : Except String (List ℚ) :=
  if st.isFitted = false then Except.error "Model moet eerst gefit worden met fit()"
  else predictLoop st X

/-- The summation loop of `sum((y[i] - predictions[i]) ** 2 for i in
range(len(y)))`; a missing prediction index is Python's `IndexError`. -/
def ssResLoop (preds y : List ℚ) (acc : ℚ) : List ℕ → Except String ℚ
  | [] => Except.ok acc
  | i :: rest =>
    match preds.get? i with
    | none => Except.error "IndexError"
    | some p => ssResLoop preds y (acc + (y.getD i 0 - p) ^ 2) rest

/-- `sum((y[i] - predictions[i]) ** 2 for i in range(len(y)))`. -/
def ssResE (preds y : List ℚ) : Except String ℚ :=
  ssResLoop preds y 0 (List.range y.length)

/-- `LinearRegression.score`: R².  `sum(y)/len(y)` on an empty `y` is
Python's `ZeroDivisionError`; the division by `ss_tot` is guarded by the
explicit `ss_tot == 0` check. -/
def score (st : LRState) (X : Mat) (y : List ℚ) : Except String ℚ :=
  if st.isFitted = false then Except.error "Model moet eerst gefit worden"
  else
    match predict st X with
    | Except.error e => Except.error e
    | Except.ok preds =>
      if y.length = 0 then Except.error "ZeroDivisionError"
      else
        let yMean := y.sum / (y.length : ℚ)
        let ssTot := (y.map fun yi => (yi - yMean) ^ 2).sum
        match ssResE preds y with
        | Except.error e => Except.error e
        | Except.ok ssRes =>
          if ssTot = 0 then Except.ok 0
          else Except.ok (1 - ssRes / ssTot)

/-- The total sum of squares appearing in `score` (claim-side shorthand). -/
def ssTotOf (y : List ℚ) : ℚ :=
  (y.map fun yi => (yi - y.sum / (y.length : ℚ)) ^ 2).sum

/-! ## Coordinator: fetching and normalising one sensor series -/

/-- ISO-8601 timestamp strings, as used by the coordinator, are modelled by
naturals: lexicographic order on ISO strings is chronological order, so the
abstraction is order-preserving, with `0` standing for the empty string (both
are Python-falsy and both sort first). -/
abbrev Timestamp := ℕ

/-- A parsed record of a coordinator series, as assembled by
`_fetch_sensor_data` (capacity already converted to GW). -/
structure Obs where
  capacity : ℚ
  timestamp : Option Timestamp
  percentage : Option ℚ := none
  lastUpdate : Option Timestamp := none
deriving Repr, DecidableEq

instance : Inhabited Obs := ⟨{ capacity := 0, timestamp := none }⟩

/-- A raw `hydra:member` record.  The `capacity` field is absent (`none`,
Python then defaults it to `0`), or present and convertible by `float`
(`some (Except.ok q)`), or present but malformed so that `float` raises
(`some (Except.error ())`). -/
structure RawRecord where
  capacity : Option (Except Unit ℚ)
  validfrom : Option Timestamp := none
  percentage : Option ℚ := none
  lastupdate : Option Timestamp := none

/-- The per-record body of the parse loop of `_fetch_sensor_data`:
`float(record.get("capacity", 0)) / 1e6` plus the copied fields; a malformed
capacity raises. -/
def parseRecord (r : RawRecord) : Except Unit Obs :=
  match r.capacity.getD (Except.ok 0) with
  | Except.error _ => Except.error ()
  | Except.ok w =>
    Except.ok { capacity := w / 1000000, timestamp := r.validfrom,
                percentage := r.percentage, lastUpdate := r.lastupdate }

/-- The sort key `x["timestamp"] or ""` of `_fetch_sensor_data`. -/
def sortKey (o : Obs) : Timestamp := o.timestamp.getD 0

/-- The outcome of the HTTP request made by `_fetch_sensor_data`: either a
response with a status code and parsed JSON records, or a transport error
(`aiohttp.ClientError`). -/
inductive HttpResult where
  | response (status : ℕ) (records : List RawRecord)
  | clientError

/-- The faults that can be raised inside the `try` block of
`_fetch_sensor_data`. -/
inductive FetchFault where
  | updateFailed (msg : String)
  | clientFault
  | parseFault
deriving Repr, DecidableEq

/-- The `for record in records` parse loop of `_fetch_sensor_data`: the
records are parsed and appended in order; the first malformed record raises
out of the loop. -/
def parseLoop : List RawRecord → Except Unit (List Obs)
  | [] => Except.ok []
  | r :: rest =>
    match parseRecord r with
    | Except.error e => Except.error e
    | Except.ok o =>
      match parseLoop rest with
      | Except.error e => Except.error e
      | Except.ok os => Except.ok (o :: os)

/-- The body of the `try` block of `_fetch_sensor_data`: raise `UpdateFailed`
on 401/403, return `[]` on any other non-200 status or on an empty record
set, otherwise parse every record and sort (stably) by timestamp. -/
def fetchBody (resp : HttpResult) : Except FetchFault (List Obs) :=
  match resp with
  | HttpResult.clientError => Except.error FetchFault.clientFault
  | HttpResult.response status records =>
    if status = 401 then Except.error (FetchFault.updateFailed "Invalid API key")
    else if status = 403 then
      Except.error (FetchFault.updateFailed "API access forbidden - check your API key")
    else if status ≠ 200 then Except.ok []
    else if records.isEmpty then Except.ok []
    else
      match parseLoop records with
      | Except.error _ => Except.error FetchFault.parseFault
      | Except.ok parsed =>
        Except.ok (parsed.mergeSort fun a b => decide (sortKey a ≤ sortKey b))

/-- `_fetch_sensor_data` as observed by its caller: the function's own
`except aiohttp.ClientError` and `except Exception` handlers both return the
empty list, so every fault raised inside the body — the `UpdateFailed` of a
401/403 included — is converted to `[]`. -/
def fetchSensorData (resp : HttpResult) : List Obs :=
  match fetchBody resp with
  | Except.ok l => l
  | Except.error _ => []

/-! ## Coordinator: derived metrics (`_async_update_data`) -/

/-- The coordinator's per-cycle series map (only the keys the embedded code
reads or writes). -/
structure DataMap where
  windOnshore : List Obs
  windOffshore : List Obs
  solar : List Obs
  consumption : List Obs
  totalRenewable : List Obs := []
  coveragePercentage : List Obs := []
  forecastEpexPrice : List Obs := []
deriving Repr, DecidableEq

/-- The derived-metrics block of `_async_update_data` (lines 96-127): when
all four source series are non-empty, read the FIRST record of each, and
store `total_renewable` and `coverage_percentage` as single-item lists
stamped with the first wind-onshore timestamp.  `gf` is the configured
`SOLAR_ON_GRID_FRACTION`. -/
def computeDerived (gf : ℚ) (d : DataMap) : DataMap :=
  if d.windOnshore ≠ [] ∧ d.windOffshore ≠ [] ∧ d.solar ≠ [] ∧ d.consumption ≠ [] then
    let windOn := (d.windOnshore.headD default).capacity
    let windOff := (d.windOffshore.headD default).capacity
    let solarVal := (d.solar.headD default).capacity
    let consumption := (d.consumption.headD default).capacity
    let ts := (d.windOnshore.headD default).timestamp
    let solarOnGrid := solarVal * gf
    let totalRenewable := windOn + windOff + solarOnGrid
    let coveragePct := if consumption > 0 then totalRenewable / consumption * 100 else 0
    { d with
        totalRenewable :=
          [{ capacity := roundTo 1 totalRenewable, timestamp := ts, percentage := none }]
        coveragePercentage :=
          [{ capacity := roundTo 1 coveragePct, timestamp := ts,
             percentage := some (roundTo 1 coveragePct) }] }
  else d

/-- One value of the `combined` dictionary built by
`_calculate_epex_forecast_lr` and `_calculate_epex_fallback`: an entry is
created only by the wind-onshore loop, the other three loops fill in fields
of existing entries. -/
structure CombEntry where
  windOnshore : ℚ
  windOffshore : Option ℚ := none
  solar : Option ℚ := none
  consumption : Option ℚ := none
deriving Repr, DecidableEq

/-- Python truthiness of `record.get("timestamp")`: `None` and the empty
string are falsy. -/
def tsOf (o : Obs) : Option Timestamp :=
  match o.timestamp with
  | none => none
  | some s => if s = 0 then none else some s

/-- Dictionary assignment `combined[ts] = v` on an insertion-ordered
association list. -/
def dictSet (m : List (Timestamp × CombEntry)) (k : Timestamp) (v : CombEntry) :
    List (Timestamp × CombEntry) :=
  if m.any fun p => p.1 == k then m.map fun p => if p.1 == k then (k, v) else p
  else m ++ [(k, v)]

/-- `if ts in combined: combined[ts][field] = v` — update only an existing
entry. -/
def dictUpdate (m : List (Timestamp × CombEntry)) (k : Timestamp)
    (f : CombEntry → CombEntry) : List (Timestamp × CombEntry) :=
  m.map fun p => if p.1 == k then (k, f p.2) else p

/-- The four `combined`-building loops shared verbatim by
`_calculate_epex_forecast_lr` and `_calculate_epex_fallback`. -/
def buildCombined (wOn wOff sol cons : List Obs) : List (Timestamp × CombEntry) :=
  let m1 := wOn.foldl
    (fun m r =>
      match tsOf r with
      | some ts => dictSet m ts { windOnshore := r.capacity }
      | none => m) []
  let m2 := wOff.foldl
    (fun m r =>
      match tsOf r with
      | some ts => dictUpdate m ts fun e => { e with windOffshore := some r.capacity }
      | none => m) m1
  let m3 := sol.foldl
    (fun m r =>
      match tsOf r with
      | some ts => dictUpdate m ts fun e => { e with solar := some r.capacity }
      | none => m) m2
  cons.foldl
    (fun m r =>
      match tsOf r with
      | some ts => dictUpdate m ts fun e => { e with consumption := some r.capacity }
      | none => m) m3

/-- `sorted(combined.items())` (keys are unique, so tuple order is key
order). -/
def sortByKey (m : List (Timestamp × CombEntry)) : List (Timestamp × CombEntry) :=
  m.mergeSort fun a b => decide (a.1 ≤ b.1)

/-- The forecast list built by `_calculate_epex_fallback`: for every
timestamp carrying all four values, emit
`round(1.08 * (consumption - total_renewable) + 0.45, 3)`. -/
def epexFallbackList (gf : ℚ) (wOn wOff sol cons : List Obs) : List Obs :=
  (sortByKey (buildCombined wOn wOff sol cons)).filterMap fun tv =>
    match tv.2.windOffshore, tv.2.solar, tv.2.consumption with
    | some b, some s, some c =>
      let solarOnGrid := s * gf
      let totalRenewable := tv.2.windOnshore + b + solarOnGrid
      let restlast := c - totalRenewable
      some { capacity := roundTo 3 (108 / 100 * restlast + 45 / 100),
             timestamp := some tv.1, percentage := none }
    | _, _, _ => none

/-- `_calculate_epex_fallback`: store the list (only when non-empty). -/
def calculateEpexFallback (gf : ℚ) (d : DataMap) : DataMap :=
  let f := epexFallbackList gf d.windOnshore d.windOffshore d.solar d.consumption
  if f ≠ [] then { d with forecastEpexPrice := f } else d

/-- The prediction loop of `_calculate_epex_forecast_lr` (lines 234-256):
for every complete timestamp, predict from the single residual feature,
clamp to `[-5, 50]`, round to 3 decimals.  A `predict` failure raises out of
the loop (the caller then falls back to the fallback formula). -/
def epexLRLoop (gf : ℚ) (model : LRState) (acc : List Obs) :
    List (Timestamp × CombEntry) → Except String (List Obs)
  | [] => Except.ok acc
  | tv :: rest =>
    match tv.2.windOffshore, tv.2.solar, tv.2.consumption with
    | some b, some s, some c =>
      let solarOnGrid := s * gf
      let renewablesTotal := tv.2.windOnshore + b + solarOnGrid
      let residual := c - renewablesTotal
      match predict model [[residual]] with
      | Except.error e => Except.error e
      | Except.ok preds =>
        let p := preds.headD 0
        let clamped := max (-5) (min 50 p)
        epexLRLoop gf model
          (acc ++ [{ capacity := roundTo 3 clamped, timestamp := some tv.1,
                     percentage := none }]) rest
    | _, _, _ => epexLRLoop gf model acc rest

/-- The forecast list built by `_calculate_epex_forecast_lr` when a model is
available. -/
def epexForecastLREntries (gf : ℚ) (model : LRState) (wOn wOff sol cons : List Obs) :
    Except String (List Obs) :=
  epexLRLoop gf model [] (sortByKey (buildCombined wOn wOff sol cons))

/-! ## Coordinator: historical feature builder and refit (`_fit_lr_model`) -/

/-- The model-related coordinator state touched by `_fit_lr_model`
(`lr_model`, `last_fit_time`, `model_r2_score`, `model_datapoints`). -/
structure CoordState where
  lrModel : Option LRState
  lastFitTime : Option ℤ
  modelR2 : Option ℚ
  modelDatapoints : Option ℕ
deriving Repr, DecidableEq

/-- `sorted(consumption_hourly.items())`: hour buckets ordered by hour. -/
def sortHours (m : List (ℕ × ℚ)) : List (ℕ × ℚ) :=
  m.mergeSort fun a b => decide (a.1 ≤ b.1)

/-- The matching-with-imputation loop of `_fit_lr_model` (lines 452-491):
iterate the consumption hour buckets in hour order; a missing solar bucket is
imputed as `0.0`; a missing wind-onshore, wind-offshore or price bucket skips
the hour (`if None in [wind_on, wind_off, price]: continue`); every surviving
hour appends the single-feature row
`[consumption - (wind_on + wind_off + solar * gf)]` to `X_list` and the
matched price to `y_list`. -/
def trainLoop (gf : ℚ) (wOnH wOffH solH priceH : List (ℕ × ℚ))
    (acc : List (List ℚ) × List ℚ) : List (ℕ × ℚ) → List (List ℚ) × List ℚ
  | [] => acc
  | hc :: rest =>
    let wOn := wOnH.lookup hc.1
    let wOff := wOffH.lookup hc.1
    let solVal := (solH.lookup hc.1).getD 0
    let price := priceH.lookup hc.1
    match wOn, wOff, price with
    | some a, some b, some p =>
      trainLoop gf wOnH wOffH solH priceH
        (acc.1 ++ [[hc.2 - (a + b + solVal * gf)]], acc.2 ++ [p]) rest
    | _, _, _ => trainLoop gf wOnH wOffH solH priceH acc rest

/-- The `X_list`/`y_list` pair `_fit_lr_model` builds from the hourly
buckets. -/
def buildTrainingData (gf : ℚ) (consH wOnH wOffH solH priceH : List (ℕ × ℚ)) :
    List (List ℚ) × List ℚ :=
  trainLoop gf wOnH wOffH solH priceH ([], []) (sortHours consH)

/-- Claim-side description of one anchor hour of the Historical Feature
Builder: if the wind-onshore, wind-offshore and price buckets are all present
the hour yields the feature row `[consumption − (wind_on + wind_off +
solar·gf)]` (with a missing solar bucket imputed as `0`) and the matched
price as target; if any of the three is missing the hour yields nothing. -/
def matchRow (gf : ℚ) (wOnH wOffH solH priceH : List (ℕ × ℚ)) (hc : ℕ × ℚ) :
    Option (List ℚ × ℚ) :=
  match wOnH.lookup hc.1, wOffH.lookup hc.1, priceH.lookup hc.1 with
  | some a, some b, some p =>
    some ([hc.2 - (a + b + ((solH.lookup hc.1).getD 0) * gf)], p)
  | _, _, _ => none

/-- `_fit_lr_model` from the hourly buckets on: skip when no price sensor is
configured; skip (keeping the prior model) when fewer than `minD`
(`MIN_DATAPOINTS`) training rows were matched; otherwise fit a fresh
`LinearRegression` — on success store it with its R² and datapoint count, on
any raised fault fall into the `except` handler, which sets `lr_model`,
`model_r2_score` and `model_datapoints` to `None`. -/
def fitLrModel (gf : ℚ) (minD : ℕ) (priceSensorSet : Bool) (now : ℤ)
    (st : CoordState) (consH wOnH wOffH solH priceH : List (ℕ × ℚ)) : CoordState :=
  if priceSensorSet = false then st
  else
    let xy := buildTrainingData gf consH wOnH wOffH solH priceH
    if xy.1.length < minD then st
    else
      match fit LRState.init xy.1 xy.2 with
      | (_, Except.error _) =>
        { st with lrModel := none, modelR2 := none, modelDatapoints := none }
      | (m1, Except.ok _) =>
        match score m1 xy.1 xy.2 with
        | Except.error _ =>
          { st with lrModel := none, lastFitTime := some now,
                    modelR2 := none, modelDatapoints := none }
        | Except.ok r2 =>
          { lrModel := some m1, lastFitTime := some now,
            modelR2 := some r2, modelDatapoints := some xy.1.length }

/-! ## Sensor: current-value resolution (`NEDEnergySensor.native_value`) -/

/-- The record-selection loop of `native_value`, abstracted over the
timestamp parser (`datetime.fromisoformat` plus the timezone adjustment):
records with a falsy or unparseable timestamp are skipped, a record at or
before `now` becomes the new candidate, and the first strictly-future record
stops the scan. -/
def currentRecordLoop (parse : Timestamp → Option ℤ) (now : ℤ) :
    Option Obs → List Obs → Option Obs
  | cur, [] => cur
  | cur, r :: rest =>
    match tsOf r with
    | none => currentRecordLoop parse now cur rest
    | some s =>
      match parse s with
      | none => currentRecordLoop parse now cur rest
      | some t =>
        if t ≤ now then currentRecordLoop parse now (some r) rest
        else cur

/-- `native_value`'s resolved record: the loop's candidate, falling back to
the first record of the series when no candidate was found. -/
def currentRecord (parse : Timestamp → Option ℤ) (now : ℤ) (sensorData : List Obs) :
    Option Obs :=
  match currentRecordLoop parse now none sensorData with
  | some r => some r
  | none => sensorData.head?

/-- `native_value`: `None` on an empty series, otherwise the resolved
record's capacity rounded to one decimal (capacities in the embedded series
are always numeric). -/
def nativeValue (parse : Timestamp → Option ℤ) (now : ℤ) (sensorData : List Obs) :
    Option ℚ :=
  if sensorData = [] then none
  else (currentRecord parse now sensorData).map fun r => roundTo 1 r.capacity

/-- The parsed time of an observation, for stating sortedness hypotheses. -/
def obsTime (parse : Timestamp → Option ℤ) (r : Obs) : Option ℤ :=
  match tsOf r with
  | none => none
  | some s => parse s

/-! ## Helper lemmas -/

lemma gjRun_cons (aug : Mat) (i : ℕ) (rest : List ℕ) :
    gjRun aug (i :: rest) =
      match gjStep aug i with
      | Except.error e => Except.error e
      | Except.ok next => gjRun next rest := rfl

lemma gjRun_cons_error {aug : Mat} {i : ℕ} {rest : List ℕ} {e : String}
    (h : gjStep aug i = Except.error e) : gjRun aug (i :: rest) = Except.error e := by
  rw [gjRun_cons, h]

lemma gjRun_cons_ok {aug next : Mat} {i : ℕ} {rest : List ℕ}
    (h : gjStep aug i = Except.ok next) : gjRun aug (i :: rest) = gjRun next rest := by
  rw [gjRun_cons, h]

lemma parseLoop_cons (r : RawRecord) (rest : List RawRecord) :
    parseLoop (r :: rest) =
      match parseRecord r with
      | Except.error e => Except.error e
      | Except.ok o =>
        match parseLoop rest with
        | Except.error e => Except.error e
        | Except.ok os => Except.ok (o :: os) := rfl

lemma parseLoop_error_of_mem {records : List RawRecord} {r : RawRecord}
    (hr : r ∈ records) (hbad : (parseRecord r).isOk = false) :
    parseLoop records = Except.error () := by
  induction records with
  | nil => cases hr
  | cons a rest ih =>
    rw [parseLoop_cons]
    rcases hok : parseRecord a with e | o
    · rfl
    · rcases List.mem_cons.mp hr with rfl | hmem
      · rw [hok] at hbad; simp [Except.isOk, Except.toBool] at hbad
      · rw [ih hmem]

lemma parseLoop_ok_of_forall {records : List RawRecord}
    (h : ∀ r ∈ records, (parseRecord r).isOk = true) :
    ∃ os, parseLoop records = Except.ok os ∧ os.length = records.length := by
  induction records with
  | nil => exact ⟨[], rfl, rfl⟩
  | cons a rest ih =>
    obtain ⟨os, hos, hlen⟩ := ih fun r hr => h r (List.mem_cons_of_mem a hr)
    have ha := h a (List.mem_cons_self a rest)
    rcases hok : parseRecord a with e | o
    · rw [hok] at ha; simp [Except.isOk, Except.toBool] at ha
    · exact ⟨o :: os, by rw [parseLoop_cons, hok, hos], by simp [hlen]⟩

/-! ## Claims -/

/-- C2: the `raise UpdateFailed` of `_fetch_sensor_data` for HTTP 401/403 is
raised inside the function's own `try` block and caught by its trailing
`except Exception` handler, so an authorization fault produces the very same
observable result as any other non-200 response — an empty series for that
data type — instead of failing the refresh cycle: the caller can never see
the difference.  (`fetchBody` is the body of the `try` block, showing the
`UpdateFailed` is indeed raised before being swallowed.) -/
theorem c2_auth_fault_swallowed :
    (∀ records, fetchSensorData (HttpResult.response 401 records) = []) ∧
    (∀ records, fetchSensorData (HttpResult.response 403 records) = []) ∧
    (∀ records, fetchSensorData (HttpResult.response 500 records) = []) ∧
    fetchBody (HttpResult.response 401 []) =
      Except.error (FetchFault.updateFailed "Invalid API key") ∧
    fetchBody (HttpResult.response 403 []) =
      Except.error (FetchFault.updateFailed "API access forbidden - check your API key") := by
  refine ⟨fun records => ?_, fun records => ?_, fun records => ?_, ?_, ?_⟩ <;>
    simp [fetchSensorData, fetchBody]

/-- C3: a single malformed record does NOT merely lose that record — it
aborts the whole parse loop, and the catch-all handler then returns the
empty series: here one well-formed and one malformed record yield `[]`
instead of a one-element series. -/
theorem c3_counterexample :
    (parseRecord { capacity := some (Except.ok 5), validfrom := some 1 }).isOk = true ∧
    (parseRecord { capacity := some (Except.error ()), validfrom := some 2 }).isOk = false ∧
    fetchSensorData (HttpResult.response 200
      [{ capacity := some (Except.ok 5), validfrom := some 1 },
       { capacity := some (Except.error ()), validfrom := some 2 }]) = [] := by
  refine ⟨rfl, rfl, ?_⟩
  simp [fetchSensorData, fetchBody, parseLoop_cons, parseRecord, parseLoop]

/-- C3 (amended): per-record fault containment does not hold — any malformed
record empties the WHOLE series for that data type; when every record is
well-formed, the returned series has exactly the input length and is sorted
non-decreasing by timestamp key. -/
theorem c3_malformed_empties_series (records : List RawRecord) (hne : records ≠ []) :
    ((∃ r ∈ records, (parseRecord r).isOk = false) →
      fetchSensorData (HttpResult.response 200 records) = []) ∧
    ((∀ r ∈ records, (parseRecord r).isOk = true) →
      (fetchSensorData (HttpResult.response 200 records)).length = records.length ∧
      (fetchSensorData (HttpResult.response 200 records)).Pairwise
        fun a b => sortKey a ≤ sortKey b) := by
  have hemp : records.isEmpty = false := by
    cases records with
    | nil => exact absurd rfl hne
    | cons a rest => rfl
  constructor
  · rintro ⟨r, hr, hbad⟩
    simp only [fetchSensorData, fetchBody, hemp]
    rw [parseLoop_error_of_mem hr hbad]
    norm_num
  · intro hgood
    obtain ⟨os, hos, hlen⟩ := parseLoop_ok_of_forall hgood
    have hfetch : fetchSensorData (HttpResult.response 200 records) =
        os.mergeSort fun a b => decide (sortKey a ≤ sortKey b) := by
      simp only [fetchSensorData, fetchBody, hemp]
      rw [hos]
      norm_num
    refine ⟨?_, ?_⟩
    · rw [hfetch, List.length_mergeSort, hlen]
    · rw [hfetch]
      have hs := @List.sorted_mergeSort Obs
        (fun a b : Obs => decide (sortKey a ≤ sortKey b))
        (fun a b c hab hbc => by
          simp only [decide_eq_true_eq] at hab hbc ⊢
          exact le_trans hab hbc)
        (fun a b => by
          simp only [Bool.or_eq_true, decide_eq_true_eq]
          exact le_total _ _)
        os
      exact hs.imp fun h => by simpa using h

/-- C3 witness: a concrete two-record well-formed input for the amended
theorem — the series keeps both records and is sorted. -/
theorem c3_malformed_empties_series_witness :
    (fetchSensorData (HttpResult.response 200
      [{ capacity := some (Except.ok 5), validfrom := some 2 },
       { capacity := some (Except.ok 7), validfrom := some 1 }])).length = 2 ∧
    (fetchSensorData (HttpResult.response 200
      [{ capacity := some (Except.ok 5), validfrom := some 2 },
       { capacity := some (Except.ok 7), validfrom := some 1 }])).Pairwise
      (fun a b => sortKey a ≤ sortKey b) := by
  have h := (c3_malformed_empties_series
    [{ capacity := some (Except.ok 5), validfrom := some 2 },
     { capacity := some (Except.ok 7), validfrom := some 1 }]
    (by simp)).2 (by
      intro r hr
      rcases List.mem_cons.mp hr with rfl | hr2
      · rfl
      · rcases List.mem_cons.mp hr2 with rfl | hr3
        · rfl
        · cases hr3)
  simpa using h

/-- The three-aligned-hours scenario of the spec: consumption 10 GW, wind
onshore 2, wind offshore 1, solar 0 at three consecutive hourly timestamps. -/
def c4data : DataMap :=
  { windOnshore := [{ capacity := 2, timestamp := some 1 },
                    { capacity := 2, timestamp := some 2 },
                    { capacity := 2, timestamp := some 3 }]
    windOffshore := [{ capacity := 1, timestamp := some 1 },
                     { capacity := 1, timestamp := some 2 },
                     { capacity := 1, timestamp := some 3 }]
    solar := [{ capacity := 0, timestamp := some 1 },
              { capacity := 0, timestamp := some 2 },
              { capacity := 0, timestamp := some 3 }]
    consumption := [{ capacity := 10, timestamp := some 1 },
                    { capacity := 10, timestamp := some 2 },
                    { capacity := 10, timestamp := some 3 }] }

lemma computeDerived_c4data :
    computeDerived 1 c4data =
      { c4data with
          totalRenewable := [{ capacity := 3, timestamp := some 1, percentage := none }]
          coveragePercentage :=
            [{ capacity := 30, timestamp := some 1, percentage := some 30 }] } := by
  simp only [computeDerived]
  split_ifs with h h2
  · norm_num [c4data, roundTo, round_eq]
  · exact absurd (by norm_num [c4data]) h2
  · exact absurd (by simp [c4data]) h

lemma epexFallbackList_c4data :
    epexFallbackList 1 c4data.windOnshore c4data.windOffshore c4data.solar
        c4data.consumption =
      [{ capacity := 801 / 100, timestamp := some 1, percentage := none },
       { capacity := 801 / 100, timestamp := some 2, percentage := none },
       { capacity := 801 / 100, timestamp := some 3, percentage := none }] := by
  have hcomb : buildCombined c4data.windOnshore c4data.windOffshore c4data.solar
      c4data.consumption =
      [(1, { windOnshore := 2, windOffshore := some 1, solar := some 0,
             consumption := some 10 }),
       (2, { windOnshore := 2, windOffshore := some 1, solar := some 0,
             consumption := some 10 }),
       (3, { windOnshore := 2, windOffshore := some 1, solar := some 0,
             consumption := some 10 })] := by
    norm_num [buildCombined, c4data, dictSet, dictUpdate, tsOf]
  norm_num [epexFallbackList, hcomb, sortByKey, List.mergeSort, List.filterMap_cons,
    roundTo, round_eq]

/-- C4 counterexample: on the spec-scenario input (three aligned hours,
grid fraction 1), the code derives `total_renewable` and
`coverage_percentage` as SINGLE-observation series computed from the
index-0 records, not one observation per matched timestamp (which would
give length 3). -/
theorem c4_counterexample :
    (computeDerived 1 c4data).totalRenewable.length = 1 ∧
    (computeDerived 1 c4data).coveragePercentage.length = 1 ∧
    ¬ (computeDerived 1 c4data).totalRenewable.length = 3 := by
  rw [computeDerived_c4data]
  norm_num

/-- C4 (amended): `total_renewable` and `coverage_percentage` are derived
from the FIRST record of each source series only (positional index 0,
single-element output series); only the fallback price series is produced
by timestamp matching, one observation per matched timestamp, here
`1.08 × (10 − 3) + 0.45 = 8.01` at each of the three hours. -/
theorem c4_derived_series_scenario :
    (computeDerived 1 c4data).totalRenewable =
      [{ capacity := 3, timestamp := some 1, percentage := none }] ∧
    (computeDerived 1 c4data).coveragePercentage =
      [{ capacity := 30, timestamp := some 1, percentage := some 30 }] ∧
    epexFallbackList 1 c4data.windOnshore c4data.windOffshore c4data.solar
        c4data.consumption =
      [{ capacity := 801 / 100, timestamp := some 1, percentage := none },
       { capacity := 801 / 100, timestamp := some 2, percentage := none },
       { capacity := 801 / 100, timestamp := some 3, percentage := none }] := by
  rw [computeDerived_c4data]
  exact ⟨rfl, rfl, epexFallbackList_c4data⟩


lemma trainLoop_cons (gf : ℚ) (wOnH wOffH solH priceH : List (ℕ × ℚ))
    (acc : List (List ℚ) × List ℚ) (hc : ℕ × ℚ) (rest : List (ℕ × ℚ)) :
    trainLoop gf wOnH wOffH solH priceH acc (hc :: rest) =
      match wOnH.lookup hc.1, wOffH.lookup hc.1, priceH.lookup hc.1 with
      | some a, some b, some p =>
        trainLoop gf wOnH wOffH solH priceH
          (acc.1 ++ [[hc.2 - (a + b + ((solH.lookup hc.1).getD 0) * gf)]], acc.2 ++ [p]) rest
      | _, _, _ => trainLoop gf wOnH wOffH solH priceH acc rest := rfl

lemma trainLoop_eq_filterMap (gf : ℚ) (wOnH wOffH solH priceH : List (ℕ × ℚ)) :
    ∀ (l : List (ℕ × ℚ)) (acc : List (List ℚ) × List ℚ),
      trainLoop gf wOnH wOffH solH priceH acc l =
        (acc.1 ++ (l.filterMap (matchRow gf wOnH wOffH solH priceH)).map Prod.fst,
         acc.2 ++ (l.filterMap (matchRow gf wOnH wOffH solH priceH)).map Prod.snd) := by
  intro l
  induction l with
  | nil => intro acc; simp [trainLoop]
  | cons hc rest ih =>
    intro acc
    rw [trainLoop_cons, List.filterMap_cons]
    rcases h1 : wOnH.lookup hc.1 with _ | a <;>
      rcases h2 : wOffH.lookup hc.1 with _ | b <;>
        rcases h3 : priceH.lookup hc.1 with _ | p <;>
          simp only [matchRow, h1, h2, h3, ih, List.map_cons, List.append_assoc,
            List.cons_append, List.nil_append, List.singleton_append, List.map]

/-- C5: the Historical Feature Builder emits, per anchor hour of the sorted
consumption buckets, exactly the rows described by `matchRow`: a missing
solar bucket is imputed as `0.0` and never causes the hour to be skipped,
while a missing wind-onshore, wind-offshore or price bucket skips the hour;
every emitted row is the single-feature vector
`[consumption − (wind_on + wind_off + solar·gf)]` with the matched price as
its target. -/
theorem c5_feature_builder_rows (gf : ℚ) (consH wOnH wOffH solH priceH : List (ℕ × ℚ)) :
    buildTrainingData gf consH wOnH wOffH solH priceH =
      (((sortHours consH).filterMap (matchRow gf wOnH wOffH solH priceH)).map Prod.fst,
       ((sortHours consH).filterMap (matchRow gf wOnH wOffH solH priceH)).map Prod.snd) := by
  rw [buildTrainingData, trainLoop_eq_filterMap]
  simp



/-- The parsed time with junk default, for stating order hypotheses (every
use below is guarded by `(obsTime parse r).isSome`). -/
def timeD (parse : Timestamp → Option ℤ) (r : Obs) : ℤ := (obsTime parse r).getD 0

lemma getLast?_cons_cases {α : Type} (a : α) (l : List α) :
    (a :: l).getLast? =
      match l.getLast? with
      | some x => some x
      | none => some a := by
  cases l with
  | nil => rfl
  | cons b t =>
    rw [List.getLast?_cons_cons]
    rcases hl : (b :: t).getLast? with _ | x
    · exact absurd hl (by simp [List.getLast?_isSome.symm])
    · rfl

lemma currentRecordLoop_cons (parse : Timestamp → Option ℤ) (now : ℤ)
    (cur : Option Obs) (r : Obs) (rest : List Obs) :
    currentRecordLoop parse now cur (r :: rest) =
      match tsOf r with
      | none => currentRecordLoop parse now cur rest
      | some s =>
        match parse s with
        | none => currentRecordLoop parse now cur rest
        | some t =>
          if t ≤ now then currentRecordLoop parse now (some r) rest else cur := rfl

lemma currentRecordLoop_eq (parse : Timestamp → Option ℤ) (now : ℤ) :
    ∀ (l : List Obs) (cur : Option Obs),
      (∀ r ∈ l, (obsTime parse r).isSome) →
      l.Pairwise (fun a b => timeD parse a ≤ timeD parse b) →
      currentRecordLoop parse now cur l =
        match (l.filter fun r => decide (timeD parse r ≤ now)).getLast? with
        | some r => some r
        | none => cur := by
  intro l
  induction l with
  | nil => intro cur _ _; rfl
  | cons r rest ih =>
    intro cur hsome hpair
    have hr := hsome r (List.mem_cons_self r rest)
    have hrest : ∀ x ∈ rest, (obsTime parse x).isSome :=
      fun x hx => hsome x (List.mem_cons_of_mem r hx)
    have hle : ∀ x ∈ rest, timeD parse r ≤ timeD parse x :=
      (List.pairwise_cons.mp hpair).1
    have hpr : rest.Pairwise fun a b => timeD parse a ≤ timeD parse b :=
      (List.pairwise_cons.mp hpair).2
    rcases hts : tsOf r with _ | sr
    · rw [obsTime, hts] at hr; simp at hr
    · rcases hp : parse sr with _ | t
      · rw [obsTime, hts] at hr; simp [hp] at hr
      · have htd : timeD parse r = t := by simp [timeD, obsTime, hts, hp]
        rw [currentRecordLoop_cons]
        simp only [hts, hp]
        by_cases hnow : t ≤ now
        · rw [if_pos hnow, ih (some r) hrest hpr, List.filter_cons_of_pos (by
            simp [htd, hnow]), getLast?_cons_cases]
          rcases (rest.filter fun x => decide (timeD parse x ≤ now)).getLast? with _ | x <;> rfl
        · rw [if_neg hnow]
          have hfil : (rest.filter fun x => decide (timeD parse x ≤ now)) = [] := by
            rw [List.filter_eq_nil_iff]
            intro x hx
            simp only [decide_eq_true_eq]
            intro hc
            exact hnow (le_trans (htd ▸ hle x hx) hc)
          rw [List.filter_cons_of_neg (by simp [htd, hnow]), hfil]
          rfl

/-- C8: for a series whose timestamps are all present and parseable and
which is chronologically sorted, the Current-Value Resolver returns the last
observation with parsed time at or before `now`; when every observation is
strictly in the future it returns the first observation; on the empty series
the resolved record (and the reported native value) is absent. -/
theorem c8_current_value_resolver (parse : Timestamp → Option ℤ) (now : ℤ)
    (l : List Obs)
    (hsome : ∀ r ∈ l, (obsTime parse r).isSome)
    (hsorted : l.Pairwise fun a b => timeD parse a ≤ timeD parse b) :
    currentRecord parse now l =
      (match (l.filter fun r => decide (timeD parse r ≤ now)).getLast? with
       | some r => some r
       | none => l.head?) ∧
    nativeValue parse now [] = none := by
  refine ⟨?_, rfl⟩
  rw [currentRecord, currentRecordLoop_eq parse now l none hsome hsorted]
  rcases (l.filter fun r => decide (timeD parse r ≤ now)).getLast? with _ | x <;> rfl

/-- C8 witness: two observations, one in the past and one in the future of
`now = 15`; the resolver picks the past one. -/
theorem c8_current_value_resolver_witness :
    currentRecord (fun s => if s = 1 then some 10 else if s = 2 then some 20 else none) 15
      [{ capacity := 5, timestamp := some 1 }, { capacity := 6, timestamp := some 2 }] =
      some { capacity := 5, timestamp := some 1 } := by
  have h := (c8_current_value_resolver
    (fun s => if s = 1 then some 10 else if s = 2 then some 20 else none) 15
    [{ capacity := 5, timestamp := some 1 }, { capacity := 6, timestamp := some 2 }]
    (by
      intro r hr
      rcases List.mem_cons.mp hr with rfl | hr2
      · rfl
      · rcases List.mem_cons.mp hr2 with rfl | hr3
        · rfl
        · cases hr3)
    (by
      simp [List.pairwise_cons, timeD, obsTime, tsOf])).1
  rw [h]
  norm_num [timeD, obsTime, tsOf, List.filter]



lemma predictRowLoop_ok (st : LRState) :
    ∀ (l : List (ℕ × ℚ)) (acc : ℚ), (∀ iv ∈ l, iv.1 < st.coefficients.length) →
      ∃ q, predictRowLoop st acc l = Except.ok q := by
  intro l
  induction l with
  | nil => exact fun acc _ => ⟨acc, rfl⟩
  | cons iv rest ih =>
    intro acc hlt
    have hiv := hlt iv (List.mem_cons_self iv rest)
    rcases hg : st.coefficients.get? iv.1 with _ | c
    · exact absurd (List.get?_eq_none.mp hg) (by omega)
    · obtain ⟨q, hq⟩ := ih (acc + c * iv.2) fun x hx => hlt x (List.mem_cons_of_mem iv hx)
      exact ⟨q, by rw [predictRowLoop, hg]; exact hq⟩

lemma predictRow_ok (st : LRState) (row : List ℚ)
    (hw : row.length = st.nFeatures) (hc : st.nFeatures ≤ st.coefficients.length) :
    ∃ q, predictRow st row = Except.ok q := by
  obtain ⟨q, hq⟩ := predictRowLoop_ok st row.enum st.intercept (by
    intro iv hiv
    have := List.mem_enum_iff_getElem?.mp hiv
    have h1 : iv.1 < row.length := by
      by_contra hge
      rw [List.getElem?_eq_none (by omega)] at this
      exact Option.noConfusion this
    omega)
  exact ⟨q, by rw [predictRow, if_neg (by omega)]; exact hq⟩

lemma predictLoop_ok (st : LRState) :
    ∀ (X : Mat), (∀ row ∈ X, ∃ q, predictRow st row = Except.ok q) →
      ∃ ps, predictLoop st X = Except.ok ps ∧ ps.length = X.length := by
  intro X
  induction X with
  | nil => exact fun _ => ⟨[], rfl, rfl⟩
  | cons row rest ih =>
    intro hall
    obtain ⟨q, hq⟩ := hall row (List.mem_cons_self row rest)
    obtain ⟨ps, hps, hlen⟩ := ih fun r hr => hall r (List.mem_cons_of_mem row hr)
    exact ⟨q :: ps, by rw [predictLoop, hq, hps], by simp [hlen]⟩

lemma ssResLoop_ok (preds y : List ℚ) :
    ∀ (idxs : List ℕ) (acc : ℚ), (∀ i ∈ idxs, i < preds.length) →
      ∃ q, ssResLoop preds y acc idxs = Except.ok q := by
  intro idxs
  induction idxs with
  | nil => exact fun acc _ => ⟨acc, rfl⟩
  | cons i rest ih =>
    intro acc hlt
    rcases hg : preds.get? i with _ | p
    · exact absurd (List.get?_eq_none.mp hg)
        (by have := hlt i (List.mem_cons_self i rest); omega)
    · obtain ⟨q, hq⟩ := ih (acc + (y.getD i 0 - p) ^ 2)
        fun x hx => hlt x (List.mem_cons_of_mem i hx)
      exact ⟨q, by rw [ssResLoop, hg]; exact hq⟩

lemma ssTotOf_eq_zero_of_const {y : List ℚ} (hy : y ≠ [])
    (hconst : ∀ a ∈ y, ∀ b ∈ y, a = b) : ssTotOf y = 0 := by
  obtain ⟨c, hc⟩ : ∃ c, ∀ a ∈ y, a = c := by
    cases y with
    | nil => exact absurd rfl hy
    | cons a t =>
      exact ⟨a, fun x hx => hconst x hx a (List.mem_cons_self a t)⟩
  have hsum : y.sum = (y.length : ℚ) * c := by
    rw [List.sum_eq_card_nsmul y c hc, nsmul_eq_mul]
  have hlen : (y.length : ℚ) ≠ 0 :=
    Nat.cast_ne_zero.mpr (List.length_pos.mpr hy).ne.symm
  rw [ssTotOf]
  apply List.sum_eq_zero
  intro x hx
  obtain ⟨a, ha, rfl⟩ := List.mem_map.mp hx
  have hcc : (y.length : ℚ) * c / y.length = c := by field_simp
  rw [hc a ha, hsum, hcc, sub_self]
  norm_num

lemma score_eval (st : LRState) (X : Mat) (y : List ℚ) {preds : List ℚ} {sr : ℚ}
    (hf : st.isFitted = true) (hp : predict st X = Except.ok preds)
    (hy : y ≠ []) (hs : ssResE preds y = Except.ok sr) :
    score st X y = if ssTotOf y = 0 then Except.ok 0
      else Except.ok (1 - sr / ssTotOf y) := by
  have hly : ¬ y.length = 0 := by
    cases y with
    | nil => exact absurd rfl hy
    | cons a t => simp
  rw [score, if_neg (by rw [hf]; exact fun h => Bool.noConfusion h), hp]
  simp only [if_neg hly, hs, ssTotOf]

/-- C7: for a fitted model (with enough coefficients for its feature width),
well-formed rows and a matching nonempty target list, `score` on a constant
target returns exactly `0` (the `ss_tot == 0` guard, never a division by
zero), and on a target with nonzero total sum of squares it returns
`1 − SSres/SStot`. -/
theorem c7_score_constant_zero (st : LRState) (X : Mat) (y : List ℚ)
    (hf : st.isFitted = true)
    (hw : ∀ r ∈ X, r.length = st.nFeatures)
    (hc : st.nFeatures ≤ st.coefficients.length)
    (hl : X.length = y.length)
    (hy : y ≠ []) :
    ((∀ a ∈ y, ∀ b ∈ y, a = b) → score st X y = Except.ok 0) ∧
    (∀ sr preds, predict st X = Except.ok preds → ssResE preds y = Except.ok sr →
      ssTotOf y ≠ 0 → score st X y = Except.ok (1 - sr / ssTotOf y)) := by
  obtain ⟨preds, hpreds, hplen⟩ := predictLoop_ok st X
    (fun row hrow => predictRow_ok st row (hw row hrow) hc)
  have hpred : predict st X = Except.ok preds := by
    rw [predict, if_neg (by rw [hf]; exact fun h => Bool.noConfusion h)]
    exact hpreds
  obtain ⟨sr, hsr⟩ := ssResLoop_ok preds y (List.range y.length) 0 (by
    intro i hi
    rw [hplen, hl]
    exact List.mem_range.mp hi)
  constructor
  · intro hconst
    rw [score_eval st X y hf hpred hy hsr,
      if_pos (ssTotOf_eq_zero_of_const hy hconst)]
  · intro sr2 preds2 hp2 hs2 htot
    rw [hpred] at hp2
    injection hp2 with hp2
    subst hp2
    rw [ssResE] at hs2
    rw [hsr] at hs2
    injection hs2 with hs2
    subst hs2
    rw [score_eval st X y hf hpred hy hsr, if_neg htot]



/-- C7 witness: a concrete fitted model and the constant target `[5, 5]` —
`score` returns exactly `0`. -/
theorem c7_score_constant_zero_witness :
    score { coefficients := [1], intercept := 0, nFeatures := 1, isFitted := true }
      [[1], [2]] [5, 5] = Except.ok 0 := by
  have hmem2 : ∀ a ∈ ([5, 5] : List ℚ), a = 5 := by
    intro a ha
    rcases List.mem_cons.mp ha with rfl | ha2
    · rfl
    · rcases List.mem_cons.mp ha2 with rfl | ha3
      · rfl
      · cases ha3
  exact (c7_score_constant_zero
    { coefficients := [1], intercept := 0, nFeatures := 1, isFitted := true }
    [[1], [2]] [5, 5] rfl
    (by
      intro r hr
      rcases List.mem_cons.mp hr with rfl | hr2
      · rfl
      · rcases List.mem_cons.mp hr2 with rfl | hr3
        · rfl
        · cases hr3)
    (by norm_num) rfl (by simp)).1
    (fun a ha b hb => by rw [hmem2 a ha, hmem2 b hb])



lemma round_le_round {a b : ℚ} (h : a ≤ b) : round a ≤ round b := by
  rw [round_eq, round_eq]
  exact Int.floor_le_floor (by linarith)

lemma roundTo3_clamp_bounds (p : ℚ) :
    -5 ≤ roundTo 3 (max (-5) (min 50 p)) ∧ roundTo 3 (max (-5) (min 50 p)) ≤ 50 := by
  have h1 : (-5 : ℚ) ≤ max (-5) (min 50 p) := le_max_left _ _
  have h2 : max (-5) (min 50 p) ≤ 50 := max_le (by norm_num) (min_le_left _ _)
  have hlo : (-5000 : ℤ) ≤ round (max (-5) (min 50 p) * 10 ^ 3) := by
    have hr := round_le_round (show (-5 : ℚ) * 10 ^ 3 ≤ max (-5) (min 50 p) * 10 ^ 3 by
      nlinarith)
    have h5 : round ((-5 : ℚ) * 10 ^ 3) = -5000 := by norm_num [round_eq]
    omega
  have hhi : round (max (-5) (min 50 p) * 10 ^ 3) ≤ (50000 : ℤ) := by
    have hr := round_le_round (show max (-5) (min 50 p) * 10 ^ 3 ≤ (50 : ℚ) * 10 ^ 3 by
      nlinarith)
    have h5 : round ((50 : ℚ) * 10 ^ 3) = 50000 := by norm_num [round_eq]
    omega
  constructor
  · rw [roundTo, le_div_iff₀ (by norm_num : (0 : ℚ) < 10 ^ 3)]
    calc (-5 : ℚ) * 10 ^ 3 = ((-5000 : ℤ) : ℚ) := by norm_num
    _ ≤ _ := Int.cast_le.mpr hlo
  · rw [roundTo, div_le_iff₀ (by norm_num : (0 : ℚ) < 10 ^ 3)]
    calc ((round (max (-5) (min 50 p) * 10 ^ 3) : ℤ) : ℚ)
        ≤ ((50000 : ℤ) : ℚ) := Int.cast_le.mpr hhi
    _ = 50 * 10 ^ 3 := by norm_num

lemma epexLRLoop_cons (gf : ℚ) (model : LRState) (acc : List Obs)
    (tv : Timestamp × CombEntry) (rest : List (Timestamp × CombEntry)) :
    epexLRLoop gf model acc (tv :: rest) =
      match tv.2.windOffshore, tv.2.solar, tv.2.consumption with
      | some b, some s, some c =>
        match predict model [[c - (tv.2.windOnshore + b + s * gf)]] with
        | Except.error e => Except.error e
        | Except.ok preds =>
          epexLRLoop gf model
            (acc ++ [{ capacity := roundTo 3 (max (-5) (min 50 (preds.headD 0))),
                       timestamp := some tv.1, percentage := none }]) rest
      | _, _, _ => epexLRLoop gf model acc rest := rfl

lemma epexLRLoop_bounds (gf : ℚ) (model : LRState) :
    ∀ (l : List (Timestamp × CombEntry)) (acc res : List Obs),
      (∀ o ∈ acc, -5 ≤ o.capacity ∧ o.capacity ≤ 50) →
      epexLRLoop gf model acc l = Except.ok res →
      ∀ o ∈ res, -5 ≤ o.capacity ∧ o.capacity ≤ 50 := by
  intro l
  induction l with
  | nil =>
    intro acc res hacc h
    injection h with h
    exact h ▸ hacc
  | cons tv rest ih =>
    intro acc res hacc h
    obtain ⟨ts, e⟩ := tv
    obtain ⟨w1, w2, sv, cv⟩ := e
    rcases w2 with _ | b
    · exact ih acc res hacc h
    · rcases sv with _ | s
      · exact ih acc res hacc h
      · rcases cv with _ | c
        · exact ih acc res hacc h
        · simp only [epexLRLoop] at h
          rcases hpred : predict model [[c - (w1 + b + s * gf)]] with e2 | preds
          · rw [hpred] at h; simp at h
          · rw [hpred] at h
            refine ih _ res ?_ h
            intro o ho
            rcases List.mem_append.mp ho with hm | hm
            · exact hacc o hm
            · rcases List.mem_cons.mp hm with rfl | hnil
              · exact roundTo3_clamp_bounds _
              · cases hnil

/-- C9: whenever the regression-based forecast loop succeeds (a fitted model
exists and predicts), every emitted price lies inside the clamp band
`[-5, 50]`; each prediction is made independently from that timestamp's
residual feature (see `epexLRLoop`). -/
theorem c9_lr_forecast_clamped (gf : ℚ) (model : LRState)
    (wOn wOff sol cons l : List Obs)
    (h : epexForecastLREntries gf model wOn wOff sol cons = Except.ok l) :
    ∀ o ∈ l, -5 ≤ o.capacity ∧ o.capacity ≤ 50 :=
  epexLRLoop_bounds gf model (sortByKey (buildCombined wOn wOff sol cons)) [] l
    (fun o ho => absurd ho (List.not_mem_nil o)) h



/-- C9 witness: a concrete fitted model `price = residual` over one complete
timestamp; the loop succeeds and the sole emitted price `7` is inside the
band. -/
theorem c9_lr_forecast_clamped_witness :
    epexForecastLREntries 1
      { coefficients := [1], intercept := 0, nFeatures := 1, isFitted := true }
      [{ capacity := 2, timestamp := some 1 }] [{ capacity := 1, timestamp := some 1 }]
      [{ capacity := 0, timestamp := some 1 }] [{ capacity := 10, timestamp := some 1 }] =
      Except.ok [{ capacity := 7, timestamp := some 1, percentage := none }] ∧
    (-5 ≤ (7 : ℚ) ∧ (7 : ℚ) ≤ 50) := by
  have hpred : predict
      { coefficients := [1], intercept := 0, nFeatures := 1, isFitted := true }
      [[(7 : ℚ)]] = Except.ok [7] := by
    norm_num [predict, predictLoop, predictRow, predictRowLoop, List.enum, List.enumFrom]
  have hcomb : buildCombined
      [{ capacity := 2, timestamp := some 1 }] [{ capacity := 1, timestamp := some 1 }]
      [{ capacity := 0, timestamp := some 1 }] [{ capacity := 10, timestamp := some 1 }] =
      [(1, { windOnshore := 2, windOffshore := some 1, solar := some 0,
             consumption := some 10 })] := by
    norm_num [buildCombined, dictSet, dictUpdate, tsOf]
  have heval : epexForecastLREntries 1
      { coefficients := [1], intercept := 0, nFeatures := 1, isFitted := true }
      [{ capacity := 2, timestamp := some 1 }] [{ capacity := 1, timestamp := some 1 }]
      [{ capacity := 0, timestamp := some 1 }] [{ capacity := 10, timestamp := some 1 }] =
      Except.ok [{ capacity := 7, timestamp := some 1, percentage := none }] := by
    rw [epexForecastLREntries, hcomb]
    norm_num [sortByKey, List.mergeSort, epexLRLoop, hpred, roundTo, round_eq]
  refine ⟨heval, ?_⟩
  exact c9_lr_forecast_clamped 1
    { coefficients := [1], intercept := 0, nFeatures := 1, isFitted := true }
    [{ capacity := 2, timestamp := some 1 }] [{ capacity := 1, timestamp := some 1 }]
    [{ capacity := 0, timestamp := some 1 }] [{ capacity := 10, timestamp := some 1 }]
    [{ capacity := 7, timestamp := some 1, percentage := none }] heval
    { capacity := 7, timestamp := some 1, percentage := none } (by simp)



lemma gjStep_eq (aug : Mat) (i : ℕ) :
    gjStep aug i =
      if |getE (swapRows aug i (pivotRow aug i)) i i| < eps then
        Except.error "Matrix is singulier (niet inverteerbaar)"
      else
        Except.ok (elimStep (scaleRow (swapRows aug i (pivotRow aug i)) i
          (getE (swapRows aug i (pivotRow aug i)) i i)) i) := rfl

lemma gjPivots_cons (aug : Mat) (i : ℕ) (rest : List ℕ) :
    gjPivots aug (i :: rest) =
      getE (swapRows aug i (pivotRow aug i)) i i ::
        gjPivots (elimStep (scaleRow (swapRows aug i (pivotRow aug i)) i
          (getE (swapRows aug i (pivotRow aug i)) i i)) i) rest := rfl

lemma gjRun_isOk_iff : ∀ (steps : List ℕ) (aug : Mat),
    (gjRun aug steps).isOk = false ↔ ∃ p ∈ gjPivots aug steps, |p| < eps := by
  intro steps
  induction steps with
  | nil =>
    intro aug
    have h1 : gjRun aug [] = Except.ok aug := rfl
    have h2 : gjPivots aug [] = [] := rfl
    rw [h1, h2]
    simp [Except.isOk, Except.toBool]
  | cons i rest ih =>
    intro aug
    rw [gjPivots_cons]
    by_cases hp : |getE (swapRows aug i (pivotRow aug i)) i i| < eps
    · have hstep : gjStep aug i =
          Except.error "Matrix is singulier (niet inverteerbaar)" := by
        rw [gjStep_eq, if_pos hp]
      rw [gjRun_cons_error hstep]
      exact ⟨fun _ => ⟨_, List.mem_cons_self _ _, hp⟩, fun _ => rfl⟩
    · have hstep : gjStep aug i =
          Except.ok (elimStep (scaleRow (swapRows aug i (pivotRow aug i)) i
            (getE (swapRows aug i (pivotRow aug i)) i i)) i) := by
        rw [gjStep_eq, if_neg hp]
      rw [gjRun_cons_ok hstep, ih]
      constructor
      · rintro ⟨p, hm, hsmall⟩
        exact ⟨p, List.mem_cons_of_mem _ hm, hsmall⟩
      · rintro ⟨p, hm, hsmall⟩
        rcases List.mem_cons.mp hm with rfl | hm2
        · exact absurd hsmall hp
        · exact ⟨p, hm2, hsmall⟩

lemma matrixInverse_isOk_iff (m : Mat) :
    (matrixInverse m).isOk = false ↔ ∃ p ∈ inversePivots m, |p| < eps := by
  rw [inversePivots, ← gjRun_isOk_iff]
  rw [matrixInverse]
  rcases hg : gjRun (augment m) (List.range m.length) with e | aug <;>
    simp [Except.isOk, Except.toBool]

/-- The coefficient vector `(XᵀX)⁻¹ · (Xᵀy)` that a successful `fit` solves
for (claim-side shorthand; on the success path the inverse is defined). -/
def solvedCoeffs (X : Mat) (y : List ℚ) : List ℚ :=
  matVec (((matrixInverse (matMulT (X.map fun r => (1 : ℚ) :: r)
      (X.map fun r => (1 : ℚ) :: r))).toOption).getD [])
    (matVecT (X.map fun r => (1 : ℚ) :: r) y)

/-- C6: `fit` fails exactly when the lengths of `X` and `y` differ, or `X`
is empty, or the Gauss-Jordan elimination with partial pivoting on `XᵀX`
(with the constant-1 column prepended to `X`) selects a pivot of magnitude
below `1e-10`; on success the state stores the first solved coefficient as
the intercept, the remaining ones as the feature coefficients, and is marked
fitted. -/
theorem c6_fit_error_iff (st : LRState) (X : Mat) (y : List ℚ)
    (hrect : ∀ r ∈ X, r.length = (X.headD []).length) :
    ((fit st X y).2.isOk = false ↔
      X.length ≠ y.length ∨ X.length = 0 ∨
        ∃ p ∈ inversePivots (matMulT (X.map fun r => (1 : ℚ) :: r)
            (X.map fun r => (1 : ℚ) :: r)), |p| < eps) ∧
    ((fit st X y).2 = Except.ok () →
      (fit st X y).1 =
        { st with
            nFeatures := (X.headD []).length
            intercept := (solvedCoeffs X y).headD 0
            coefficients := (solvedCoeffs X y).tail
            isFitted := true }) := by
  by_cases hlen : X.length = y.length
  · by_cases hemp : X.length = 0
    · have hfit : fit st X y = (st, Except.error "Training data mag niet leeg zijn") := by
        rw [fit, if_neg (by omega), if_pos hemp]
      rw [hfit]
      exact ⟨⟨fun _ => Or.inr (Or.inl hemp), fun _ => rfl⟩,
        fun hok => absurd hok (by simp)⟩
    · rcases hinv : matrixInverse (matMulT (X.map fun r => (1 : ℚ) :: r)
          (X.map fun r => (1 : ℚ) :: r)) with e | M
      · have hfit : fit st X y =
            ({ st with nFeatures := (X.headD []).length }, Except.error e) := by
          rw [fit, if_neg (by omega), if_neg hemp]
          simp only [hinv]
        rw [hfit]
        constructor
        · constructor
          · intro _
            refine Or.inr (Or.inr ?_)
            rw [← matrixInverse_isOk_iff, hinv]
            rfl
          · intro _
            rfl
        · exact fun hok => absurd hok (by simp)
      · have hfit : fit st X y =
            ({ st with
                nFeatures := (X.headD []).length
                intercept := (matVec M (matVecT (X.map fun r => (1 : ℚ) :: r) y)).headD 0
                coefficients := (matVec M (matVecT (X.map fun r => (1 : ℚ) :: r) y)).tail
                isFitted := true },
              Except.ok ()) := by
          rw [fit, if_neg (by omega), if_neg hemp]
          simp only [hinv]
        rw [hfit]
        constructor
        · constructor
          · intro hff
            exact absurd hff (by simp [Except.isOk, Except.toBool])
          · rintro (hc | hc | hc)
            · exact absurd hlen hc
            · exact absurd hc hemp
            · have h2 := (matrixInverse_isOk_iff _).mpr hc
              rw [hinv] at h2
              exact absurd h2 (by simp [Except.isOk, Except.toBool])
        · intro _
          rw [solvedCoeffs, hinv]
          rfl
  · have hfit : fit st X y =
        (st, Except.error "X en y moeten dezelfde lengte hebben") := by
      rw [fit, if_pos hlen]
    rw [hfit]
    exact ⟨⟨fun _ => Or.inl hlen, fun _ => rfl⟩, fun hok => absurd hok (by simp)⟩



/-- C6 witness: the concrete fit of `y = x` on `X = [[1],[2]]`, `y = [1,2]`
succeeds (learning intercept `0`, coefficient `1`), so by the iff no selected
pivot is below the threshold. -/
theorem c6_fit_error_iff_witness :
    fit LRState.init [[1], [2]] [1, 2] =
      ({ coefficients := [1], intercept := 0, nFeatures := 1, isFitted := true },
        Except.ok ()) ∧
    ¬ ∃ p ∈ inversePivots (matMulT (([[1], [2]] : Mat).map fun r => (1 : ℚ) :: r)
        (([[1], [2]] : Mat).map fun r => (1 : ℚ) :: r)), |p| < eps := by
  have hmap : ([[1], [2]] : Mat).map (fun r => (1 : ℚ) :: r) = [[1, 1], [1, 2]] := by
    norm_num
  have hXtX : matMulT [[1, 1], [1, 2]] [[1, 1], [1, 2]] = [[2, 3], [3, 5]] := by
    norm_num [matMulT, getE, List.range_succ]
  have haug : augment [[2, 3], [3, 5]] = [[2, 3, 1, 0], [3, 5, 0, 1]] := by
    norm_num [augment, List.range_succ, List.enum, List.enumFrom]
  have h0 : gjStep [[2, 3, 1, 0], [3, 5, 0, 1]] 0 =
      Except.ok [[1, 5/3, 0, 1/3], [0, -1/3, 1, -2/3]] := by
    norm_num [gjStep, pivotRow, swapRows, scaleRow, elimStep, getE, eps,
      List.range'_succ, List.enum, List.enumFrom]
  have h1 : gjStep [[1, 5/3, 0, 1/3], [0, -1/3, 1, -2/3]] 1 =
      Except.ok [[1, 0, 5, -3], [0, 1, -3, 2]] := by
    norm_num [gjStep, pivotRow, swapRows, scaleRow, elimStep, getE, eps,
      List.range'_succ, List.enum, List.enumFrom]
    intro hc
    rw [abs_lt] at hc
    norm_num at hc
  have hrun : gjRun [[2, 3, 1, 0], [3, 5, 0, 1]] [0, 1] =
      Except.ok [[1, 0, 5, -3], [0, 1, -3, 2]] := by
    rw [gjRun_cons_ok h0, gjRun_cons_ok h1]
    rfl
  have hinv : matrixInverse [[2, 3], [3, 5]] = Except.ok [[5, -3], [-3, 2]] := by
    rw [matrixInverse]
    rw [show List.range ([[2, 3], [3, 5]] : Mat).length = [0, 1] by
      simp [List.range_succ]]
    rw [haug, hrun]
    norm_num
  have hfit : fit LRState.init [[1], [2]] [1, 2] =
      ({ coefficients := [1], intercept := 0, nFeatures := 1, isFitted := true },
        Except.ok ()) := by
    rw [fit, if_neg (by norm_num), if_neg (by norm_num), hmap]
    dsimp only
    rw [hXtX, hinv]
    norm_num [matVec, matVecT, getE, List.range_succ, LRState.init]
  refine ⟨hfit, fun hex => ?_⟩
  have hrect : ∀ r ∈ ([[1], [2]] : Mat), r.length = (([[1], [2]] : Mat).headD []).length := by
    intro r hr
    rcases List.mem_cons.mp hr with rfl | hr2
    · rfl
    · rcases List.mem_cons.mp hr2 with rfl | hr3
      · rfl
      · cases hr3
  have hiff := (c6_fit_error_iff LRState.init [[1], [2]] [1, 2] hrect).1
  have hfalse := hiff.mpr (Or.inr (Or.inr hex))
  rw [hfit] at hfalse
  exact Bool.noConfusion hfalse



lemma predictRowLoop_congr {st1 st2 : LRState}
    (h : st1.coefficients = st2.coefficients) :
    ∀ (l : List (ℕ × ℚ)) (acc : ℚ),
      predictRowLoop st1 acc l = predictRowLoop st2 acc l := by
  intro l
  induction l with
  | nil => intro acc; rfl
  | cons iv rest ih =>
    intro acc
    rw [predictRowLoop, predictRowLoop, h]
    rcases st2.coefficients.get? iv.1 with _ | c
    · rfl
    · exact ih (acc + c * iv.2)

/-- C10: a `fit` call on non-empty width-w2 data that fails with the
singular-matrix error leaves `coefficients`, `intercept` and the fitted flag
at their prior values but overwrites `n_features` with w2 (it is assigned
before the guarded inversion); afterwards `predict` validates rows against
the NEW width w2 while the coefficient vector is still the OLD one: a
width-w2 row passes validation and is evaluated with the old coefficients
and intercept. -/
theorem c10_failed_fit_not_atomic (st : LRState) (X : Mat) (y : List ℚ)
    (hfit : st.isFitted = true)
    (hne : X ≠ [])
    (hrect : ∀ r ∈ X, r.length = (X.headD []).length)
    (hlen : X.length = y.length)
    (hfail : (fit st X y).2.isOk = false) :
    (fit st X y).1.coefficients = st.coefficients ∧
    (fit st X y).1.intercept = st.intercept ∧
    (fit st X y).1.isFitted = true ∧
    (fit st X y).1.nFeatures = (X.headD []).length ∧
    (∀ row : List ℚ, row.length ≠ (X.headD []).length →
      predictRow ((fit st X y).1) row = Except.error "Feature count mismatch") ∧
    (∀ row : List ℚ, row.length = (X.headD []).length →
      predictRow ((fit st X y).1) row = predictRowLoop st st.intercept row.enum) := by
  have hX0 : ¬ X.length = 0 := by
    cases X with
    | nil => exact absurd rfl hne
    | cons a t => simp
  rcases hinv : matrixInverse (matMulT (X.map fun r => (1 : ℚ) :: r)
      (X.map fun r => (1 : ℚ) :: r)) with e | M
  · have hfit2 : fit st X y =
        ({ st with nFeatures := (X.headD []).length }, Except.error e) := by
      rw [fit, if_neg (by omega), if_neg hX0]
      dsimp only
      rw [hinv]
    rw [hfit2]
    refine ⟨rfl, rfl, hfit, rfl, ?_, ?_⟩
    · intro row hrow
      rw [predictRow, if_pos hrow]
    · intro row hrow
      rw [predictRow, if_neg (by simpa using hrow)]
      exact @predictRowLoop_congr { st with nFeatures := (X.headD []).length } st rfl
        row.enum st.intercept
  · exfalso
    have hfit2 : (fit st X y).2 = Except.ok () := by
      rw [fit, if_neg (by omega), if_neg hX0]
      dsimp only
      rw [hinv]
    rw [hfit2] at hfail
    exact Bool.noConfusion hfail



/-- A model previously fitted on width-2 data (old coefficients `[2, 3]`,
intercept `1`). -/
def c10st : LRState :=
  { coefficients := [2, 3], intercept := 1, nFeatures := 2, isFitted := true }

/-- C10 witness: refitting `c10st` on constant width-1 data fails singular;
`n_features` becomes 1, the old coefficients survive, a width-2 row is now
rejected and a width-1 row is evaluated with the old first coefficient
(`1 + 2·9 = 19`). -/
theorem c10_failed_fit_not_atomic_witness :
    (fit c10st [[5], [5]] [0, 0]).2.isOk = false ∧
    (fit c10st [[5], [5]] [0, 0]).1.coefficients = [2, 3] ∧
    (fit c10st [[5], [5]] [0, 0]).1.nFeatures = 1 ∧
    predictRow (fit c10st [[5], [5]] [0, 0]).1 [1, 2] =
      Except.error "Feature count mismatch" ∧
    predictRow (fit c10st [[5], [5]] [0, 0]).1 [9] = Except.ok 19 := by
  have h0 : gjStep [[2, 10, 1, 0], [10, 50, 0, 1]] 0 =
      Except.ok [[1, 5, 0, 1/10], [0, 0, 1, -1/5]] := by
    norm_num [gjStep, pivotRow, swapRows, scaleRow, elimStep, getE, eps,
      List.range'_succ, List.enum, List.enumFrom]
  have h1 : gjStep [[1, 5, 0, 1/10], [0, 0, 1, -1/5]] 1 =
      Except.error "Matrix is singulier (niet inverteerbaar)" := by
    norm_num [gjStep, pivotRow, swapRows, scaleRow, elimStep, getE, eps,
      List.range'_succ, List.enum, List.enumFrom]
  have hinv : matrixInverse [[2, 10], [10, 50]] =
      Except.error "Matrix is singulier (niet inverteerbaar)" := by
    rw [matrixInverse]
    rw [show List.range ([[2, 10], [10, 50]] : Mat).length = [0, 1] by
      simp [List.range_succ]]
    rw [show augment [[2, 10], [10, 50]] = [[2, 10, 1, 0], [10, 50, 0, 1]] by
      norm_num [augment, List.range_succ, List.enum, List.enumFrom]]
    rw [gjRun_cons_ok h0, gjRun_cons_error h1]
  have hfail : (fit c10st [[5], [5]] [0, 0]).2.isOk = false := by
    rw [fit, if_neg (by norm_num), if_neg (by norm_num)]
    dsimp only
    rw [show ([[5], [5]] : Mat).map (fun r => (1 : ℚ) :: r) = [[1, 5], [1, 5]] from by
      norm_num]
    rw [show matMulT [[1, 5], [1, 5]] [[1, 5], [1, 5]] = [[2, 10], [10, 50]] from by
      norm_num [matMulT, getE, List.range_succ]]
    rw [hinv]
    rfl
  have h := c10_failed_fit_not_atomic c10st [[5], [5]] [0, 0] rfl (by simp)
    (by
      intro r hr
      rcases List.mem_cons.mp hr with rfl | hr2
      · rfl
      · rcases List.mem_cons.mp hr2 with rfl | hr3
        · rfl
        · cases hr3)
    (by norm_num) hfail
  refine ⟨hfail, h.1, h.2.2.2.1, h.2.2.2.2.1 [1, 2] (by norm_num), ?_⟩
  rw [h.2.2.2.2.2 [9] (by norm_num)]
  norm_num [predictRowLoop, List.enum, List.enumFrom, c10st]


/-- C1 (amended): when a refit reaches the fit and the fit raises (singular
matrix or any internal fault), `_fit_lr_model`'s `except` handler does NOT
retain the previous model: it resets `lr_model`, `model_r2_score` and
`model_datapoints` to `None` (`last_fit_time` alone keeps its prior value,
being assigned only after a successful fit). -/
theorem c1_refit_failure_resets (gf : ℚ) (minD : ℕ) (now : ℤ) (st : CoordState)
    (consH wOnH wOffH solH priceH : List (ℕ × ℚ))
    (h1 : minD ≤ (buildTrainingData gf consH wOnH wOffH solH priceH).1.length)
    (h2 : (fit LRState.init (buildTrainingData gf consH wOnH wOffH solH priceH).1
        (buildTrainingData gf consH wOnH wOffH solH priceH).2).2.isOk = false) :
    fitLrModel gf minD true now st consH wOnH wOffH solH priceH =
      { st with lrModel := none, modelR2 := none, modelDatapoints := none } := by
  rw [fitLrModel, if_neg (by simp)]
  dsimp only
  rw [if_neg (by omega)]
  rcases hfv : fit LRState.init (buildTrainingData gf consH wOnH wOffH solH priceH).1
      (buildTrainingData gf consH wOnH wOffH solH priceH).2 with ⟨m1, rr⟩
  rcases rr with e | u
  · rfl
  · rw [hfv] at h2
    exact absurd h2 (by simp [Except.isOk, Except.toBool])

/-- The previously fitted model of the C1 scenario. -/
def c1lr : LRState :=
  { coefficients := [2], intercept := 1, nFeatures := 1, isFitted := true }

/-- A coordinator state holding a previously fitted model with its metrics. -/
def c1st : CoordState :=
  { lrModel := some c1lr, lastFitTime := some 0, modelR2 := some 1,
    modelDatapoints := some 5 }

lemma c1_buildTrainingData_eval :
    buildTrainingData 1 [(0, 10), (1, 10)] [(0, 1), (1, 1)] [(0, 1), (1, 1)] []
      [(0, 5), (1, 5)] = ([[8], [8]], [5, 5]) := by
  norm_num [buildTrainingData, sortHours, List.mergeSort, trainLoop, List.lookup,
    show ((0 : ℕ) == 0) = true from rfl, show ((0 : ℕ) == 1) = false from rfl,
    show ((1 : ℕ) == 0) = false from rfl, show ((1 : ℕ) == 1) = true from rfl]

lemma c1_fit_fails :
    (fit LRState.init [[8], [8]] [5, 5]).2.isOk = false := by
  have h0 : gjStep [[2, 16, 1, 0], [16, 128, 0, 1]] 0 =
      Except.ok [[1, 8, 0, 1/16], [0, 0, 1, -1/8]] := by
    norm_num [gjStep, pivotRow, swapRows, scaleRow, elimStep, getE, eps,
      List.range'_succ, List.enum, List.enumFrom]
  have h1 : gjStep [[1, 8, 0, 1/16], [0, 0, 1, -1/8]] 1 =
      Except.error "Matrix is singulier (niet inverteerbaar)" := by
    norm_num [gjStep, pivotRow, swapRows, scaleRow, elimStep, getE, eps,
      List.range'_succ, List.enum, List.enumFrom]
  have hinv : matrixInverse [[2, 16], [16, 128]] =
      Except.error "Matrix is singulier (niet inverteerbaar)" := by
    rw [matrixInverse]
    rw [show List.range ([[2, 16], [16, 128]] : Mat).length = [0, 1] by
      simp [List.range_succ]]
    rw [show augment [[2, 16], [16, 128]] = [[2, 16, 1, 0], [16, 128, 0, 1]] by
      norm_num [augment, List.range_succ, List.enum, List.enumFrom]]
    rw [gjRun_cons_ok h0, gjRun_cons_error h1]
  rw [fit, if_neg (by norm_num), if_neg (by norm_num)]
  dsimp only
  rw [show ([[8], [8]] : Mat).map (fun r => (1 : ℚ) :: r) = [[1, 8], [1, 8]] from by
    norm_num]
  rw [show matMulT [[1, 8], [1, 8]] [[1, 8], [1, 8]] = [[2, 16], [16, 128]] from by
    norm_num [matMulT, getE, List.range_succ]]
  rw [hinv]
  rfl

/-- C1 witness: on a concrete constant-residual training set (singular
`XᵀX`) the amended theorem applies: the refit leaves a coordinator that
serves NO model any more. -/
theorem c1_refit_failure_resets_witness :
    fitLrModel 1 2 true 7 c1st [(0, 10), (1, 10)] [(0, 1), (1, 1)] [(0, 1), (1, 1)]
      [] [(0, 5), (1, 5)] =
      { lrModel := none, lastFitTime := some 0, modelR2 := none,
        modelDatapoints := none } := by
  have h := c1_refit_failure_resets 1 2 7 c1st [(0, 10), (1, 10)] [(0, 1), (1, 1)]
    [(0, 1), (1, 1)] [] [(0, 5), (1, 5)]
    (by rw [c1_buildTrainingData_eval]; norm_num)
    (by rw [c1_buildTrainingData_eval]; exact c1_fit_fails)
  rw [h]
  rfl

/-- C1 counterexample: the claim says a failed refit leaves the stored model,
R² and datapoint count unchanged; on this input the prior values
(`some …`, R² `1`, 5 datapoints) are all wiped to `None`. -/
theorem c1_counterexample :
    (fitLrModel 1 2 true 7 c1st [(0, 10), (1, 10)] [(0, 1), (1, 1)] [(0, 1), (1, 1)]
        [] [(0, 5), (1, 5)]).modelR2 = none ∧
    c1st.modelR2 = some 1 ∧
    (fitLrModel 1 2 true 7 c1st [(0, 10), (1, 10)] [(0, 1), (1, 1)] [(0, 1), (1, 1)]
        [] [(0, 5), (1, 5)]).lrModel = none ∧
    c1st.lrModel ≠ none := by
  have heval : fitLrModel 1 2 true 7 c1st [(0, 10), (1, 10)] [(0, 1), (1, 1)]
      [(0, 1), (1, 1)] [] [(0, 5), (1, 5)] =
      { lrModel := none, lastFitTime := some 0, modelR2 := none,
        modelDatapoints := none } := by
    rw [fitLrModel, if_neg (by simp)]
    dsimp only
    rw [c1_buildTrainingData_eval]
    rw [if_neg (by norm_num)]
    rcases hfv : fit LRState.init [[8], [8]] [5, 5] with ⟨m1, rr⟩
    rcases rr with e | u
    · simp [c1st]
    · have hff := c1_fit_fails
      rw [hfv] at hff
      exact absurd hff (by simp [Except.isOk, Except.toBool])
  rw [heval]
  exact ⟨rfl, rfl, rfl, by simp [c1st]⟩


end NED
